import Mathlib

/-!
Verification of the `@mcp-it/fastify` plugin core: a shallow embedding of
the Schema Resolver (`src/services/schema.ts`), Tool Converter
(`src/services/tool-converter.ts`, plus the older variant of the same file),
Route Filter (`src/services/route-filter.ts`), Request Dispatcher
(`src/services/request-handler.ts`), the `onRoute` registration hook and the
SSE session bookkeeping (`src/index.ts`).

JavaScript runtime values are modelled by `JSVal`: JSON-like trees extended
with `undefined` (the JS `undefined`).  JS truthiness, `||` / `??`, property
access, `Object.entries`, string coercion and `JSON.stringify(v, null, 2)`
are modelled by executable functions below, each following the semantics the
source relies on.
-/

/-- A JavaScript runtime value as used by the plugin: JSON data plus
`undefined`.  Numbers are carried as integers (no arithmetic is performed on
them anywhere in the embedded code; they are only stored, truthiness-tested
and printed). -/
inductive JSVal where
  | undefined : JSVal
  | null : JSVal
  | bool (b : Bool) : JSVal
  | num (n : Int) : JSVal
  | str (s : String) : JSVal
  | arr (elems : List JSVal) : JSVal
  | obj (fields : List (String × JSVal)) : JSVal
deriving Repr

namespace JSVal

/-- JS truthiness: `undefined`, `null`, `false`, `0` and `""` are falsy;
every other value (including `[]` and `\x7b\x7d`) is truthy. -/
def truthy : JSVal → Bool
  | .undefined => false
  | .null => false
  | .bool b => b
  | .num n => n != 0
  | .str s => s != ""
  | .arr _ => true
  | .obj _ => true

end JSVal

/-- Property access `x?.[k]` (and guarded `x.k`): on an object, the value of
the first field named `k` (JS objects have unique keys); `undefined` on
anything else, matching both optional chaining on `null`/`undefined` and
plain access of a missing property. -/
def jsField (v : JSVal) (k : String) : JSVal :=
  match v with
  | .obj fields =>
    match fields.find? (fun p => p.1 == k) with
    | some p => p.2
    | none => .undefined
  | _ => .undefined

/-- JS `a || b`. -/
def jsOr (a b : JSVal) : JSVal := if a.truthy then a else b

/-- JS `a ?? b` (nullish coalescing). -/
def jsNullish (a b : JSVal) : JSVal :=
  match a with
  | .undefined => b
  | .null => b
  | _ => a

/-- Helper for `Object.entries` on arrays: elements keyed by their decimal
index starting at `i`. -/
def enumEntries : List JSVal → Nat → List (String × JSVal)
  | [], _ => []
  | x :: xs, i => (toString i, x) :: enumEntries xs (i + 1)

/-- `Object.entries(v)`: the fields of an object, the indexed elements of an
array, and `[]` for primitives. -/
def jsEntries (v : JSVal) : List (String × JSVal) :=
  match v with
  | .obj fields => fields
  | .arr xs => enumEntries xs 0
  | _ => []

mutual

/-- JS `String(v)` coercion, as used by template literals and `+` with a
string operand. -/
def jsToString : JSVal → String
  | .undefined => "undefined"
  | .null => "null"
  | .bool b => cond b "true" "false"
  | .num n => toString n
  | .str s => s
  | .arr xs => jsJoinWith "," xs
  | .obj _ => "[object Object]"

/-- JS `Array.prototype.join(sep)`: elements coerced with `String`, except
`null` and `undefined` which become the empty string. -/
def jsJoinWith (sep : String) : List JSVal → String
  | [] => ""
  | [x] => jsJoinElem x
  | x :: y :: xs => jsJoinElem x ++ sep ++ jsJoinWith sep (y :: xs)

/-- One element of an `Array.prototype.join`. -/
def jsJoinElem : JSVal → String
  | .undefined => ""
  | .null => ""
  | x => jsToString x

end

/-- A found property is a structural component of its object. -/
theorem sizeOf_jsField_lt {v : JSVal} {k : String} (h : jsField v k ≠ .undefined) :
    sizeOf (jsField v k) < sizeOf v := by
  match v with
  | .undefined | .null | .bool _ | .num _ | .str _ | .arr _ =>
    simp [jsField] at h
  | .obj fields =>
    simp only [jsField] at h ⊢
    cases hf : fields.find? (fun p => p.1 == k) with
    | none => simp [hf] at h
    | some p =>
      have hmem : p ∈ fields := List.mem_of_find?_eq_some hf
      have h1 : sizeOf p < sizeOf fields := List.sizeOf_lt_of_mem hmem
      obtain ⟨k', v'⟩ := p
      simp only [hf]
      simp only [Prod.mk.sizeOf_spec] at h1
      simp only [JSVal.obj.sizeOf_spec]
      omega

/-- A truthy value is not `undefined`. -/
theorem truthy_ne_undef {v : JSVal} (h : v.truthy = true) : v ≠ .undefined := by
  intro hv; subst hv; simp [JSVal.truthy] at h

theorem sizeOf_mem_enumEntries {xs : List JSVal} {i : Nat} {k : String}
    {w : JSVal} (h : (k, w) ∈ enumEntries xs i) : sizeOf w < sizeOf xs := by
  induction xs generalizing i with
  | nil => simp [enumEntries] at h
  | cons x rest ih =>
    simp only [enumEntries, List.mem_cons] at h
    rcases h with h | h
    · obtain ⟨-, rfl⟩ := Prod.mk.injEq .. ▸ h
      simp only [List.cons.sizeOf_spec]
      omega
    · have := ih h
      simp only [List.cons.sizeOf_spec]
      omega

/-- An entry's value is a structural component of the entered value. -/
theorem sizeOf_mem_jsEntries {v : JSVal} {k : String} {w : JSVal}
    (h : (k, w) ∈ jsEntries v) : sizeOf w < sizeOf v := by
  match v with
  | .undefined | .null | .bool _ | .num _ | .str _ =>
    simp [jsEntries] at h
  | .obj fields =>
    simp only [jsEntries] at h
    have h1 : sizeOf (k, w) < sizeOf fields := List.sizeOf_lt_of_mem h
    simp only [Prod.mk.sizeOf_spec] at h1
    simp only [JSVal.obj.sizeOf_spec]
    omega
  | .arr xs =>
    simp only [jsEntries] at h
    have := sizeOf_mem_enumEntries h
    simp only [JSVal.arr.sizeOf_spec]
    omega

/-- `getSchemaType` from `src/services/schema.ts`: infer a JSON-Schema
type tag — a falsy node is `"string"`; a truthy `type` field wins; else
`properties` means `"object"`, `items` means `"array"`, default
`"string"`. -/
def getSchemaType (schema : JSVal) : JSVal :=
  if schema.truthy = false then .str "string"
  else if (jsField schema "type").truthy then jsField schema "type"
  else if (jsField schema "properties").truthy then .str "object"
  else if (jsField schema "items").truthy then .str "array"
  else .str "string"

/-- `generateExampleFromSchema` from `src/services/schema.ts`: synthesize an
example value by dispatching on the inferred type; scalars fall back along
`example || default || placeholder`, arrays wrap the recursively synthesized
item example, objects synthesize each declared property. -/
def generateExampleFromSchema (schema : JSVal) : JSVal :=
  if schema.truthy = false then .undefined
  else
    match getSchemaType schema with
    | .str "string" =>
      jsOr (jsField schema "example") (jsOr (jsField schema "default") (.str "string"))
    | .str "number" =>
      jsOr (jsField schema "example") (jsOr (jsField schema "default") (.num 0))
    | .str "integer" =>
      jsOr (jsField schema "example") (jsOr (jsField schema "default") (.num 0))
    | .str "boolean" =>
      jsOr (jsField schema "example") (jsOr (jsField schema "default") (.bool false))
    | .str "array" =>
      if h : (jsField schema "items").truthy = true then
        .arr [generateExampleFromSchema (jsField schema "items")]
      else .arr []
    | .str "object" =>
      if h : (jsField schema "properties").truthy = true then
        .obj ((jsEntries (jsField schema "properties")).attach.map
          (fun kv => (kv.1.1, generateExampleFromSchema kv.1.2)))
      else .obj []
    | _ => .undefined
termination_by sizeOf schema
decreasing_by
  · exact sizeOf_jsField_lt (truthy_ne_undef h)
  · exact Nat.lt_trans (sizeOf_mem_jsEntries kv.2)
      (sizeOf_jsField_lt (truthy_ne_undef h))

/-- `"#/".replace` helper on character lists: drop the first occurrence of
`pat`, leave everything else unchanged (JS `String.prototype.replace` with a
string pattern replaces only the first occurrence). -/
def replaceFirstChars : List Char → List Char → List Char
  | [], _ => []
  | c :: rest, pat =>
    if pat.isPrefixOf (c :: rest) then (c :: rest).drop pat.length
    else c :: replaceFirstChars rest pat

/-- JS `s.replace(pat, "")` for a plain string pattern. -/
def jsReplaceFirst (s pat : String) : String :=
  String.mk (replaceFirstChars s.toList pat.toList)

/-- JS `s.split("/")` (the only separator the source ever splits on):
single-character split, keeping empty segments like JS does. -/
def splitSlashChars : List Char → List (List Char)
  | [] => [[]]
  | a :: rest =>
    let gs := splitSlashChars rest
    if a = '/' then [] :: gs
    else
      match gs with
      | [] => [[a]]
      | g :: gs2 => (a :: g) :: gs2

/-- JS `s.split("/")` on strings. -/
def jsSplitSlash (s : String) : List String :=
  (splitSlashChars s.toList).map String.mk

/-- Outcome of walking a `$ref` path against the root schema: the loop
`if (resolved[segment]) ... else return schema` either crashes (indexing
`null`/`undefined`), fails soft on a missing/falsy segment, or finds a
value. -/
inductive RefLookup where
  | crash : RefLookup
  | missing : RefLookup
  | found (v : JSVal) : RefLookup

/-- Walk the reference path segments against the (current) resolved value,
with JS truthiness deciding whether a segment exists. -/
def followRefPath : JSVal → List String → RefLookup
  | resolved, [] => .found resolved
  | .undefined, _ :: _ => .crash
  | .null, _ :: _ => .crash
  | resolved, seg :: rest =>
    if (jsField resolved seg).truthy then followRefPath (jsField resolved seg) rest
    else .missing

mutual

/-- `resolveSchemaReferences` from `src/services/schema.ts`, with explicit
fuel for the `$ref`-following recursion (the source performs no cycle
detection and can diverge; `none` models divergence or a thrown
`TypeError`).  A falsy schema is returned as-is; an object with a truthy
`$ref` is replaced by the recursively resolved target, or returned
unchanged when a path segment is missing; other objects and arrays are
rebuilt field by field; scalars pass through. -/
def resolveSchemaReferences (fuel : Nat) (schema rootSchema : JSVal) : Option JSVal :=
  if schema.truthy = false then some schema
  else
    match schema with
    | .arr xs => (resolveArrayItems fuel rootSchema xs).map .arr
    | .obj fields =>
      if (jsField (.obj fields) "$ref").truthy then
        match jsField (.obj fields) "$ref" with
        | .str r =>
          match followRefPath rootSchema (jsSplitSlash (jsReplaceFirst r "#/")) with
          | .crash => none
          | .missing => some (.obj fields)
          | .found resolved =>
            match fuel with
            | 0 => none
            | n + 1 => resolveSchemaReferences n resolved rootSchema
        | _ => none
      else
        (resolveObjectFields fuel rootSchema fields).map .obj
    | s => some s
termination_by (fuel, sizeOf schema)

/-- Rebuild of array elements inside `resolveSchemaReferences`. -/
def resolveArrayItems (fuel : Nat) (rootSchema : JSVal) :
    List JSVal → Option (List JSVal)
  | [] => some []
  | x :: xs => do
    let y ← resolveSchemaReferences fuel x rootSchema
    let ys ← resolveArrayItems fuel rootSchema xs
    pure (y :: ys)
termination_by xs => (fuel, sizeOf xs)

/-- Rebuild of object fields inside `resolveSchemaReferences`. -/
def resolveObjectFields (fuel : Nat) (rootSchema : JSVal) :
    List (String × JSVal) → Option (List (String × JSVal))
  | [] => some []
  | (k, v) :: fs => do
    let w ← resolveSchemaReferences fuel v rootSchema
    let ws ← resolveObjectFields fuel rootSchema fs
    pure ((k, w) :: ws)
termination_by fs => (fuel, sizeOf fs)

end

/-- A falsy schema value resolves to itself at any fuel. -/
theorem resolve_falsy {schema : JSVal} (h : schema.truthy = false)
    (fuel : Nat) (root : JSVal) :
    resolveSchemaReferences fuel schema root = some schema := by
  rw [resolveSchemaReferences.eq_def]
  simp [h]

/-- `undefined` schema fragments resolve to themselves (the common case for
absent `querystring`/`body`/`params`/`response`). -/
theorem resolve_undef (fuel : Nat) (root : JSVal) :
    resolveSchemaReferences fuel .undefined root = some .undefined :=
  @resolve_falsy JSVal.undefined rfl fuel root

/-- Rebuilding object fields keeps a falsy `$ref` field falsy (falsy values
resolve to themselves), so a rebuilt object never acquires a truthy
`$ref`. -/
theorem resolveObjectFields_refFalsy {fuel : Nat} {root : JSVal}
    {fs gs : List (String × JSVal)}
    (h : resolveObjectFields fuel root fs = some gs)
    (hf : (jsField (.obj fs) "$ref").truthy = false) :
    (jsField (.obj gs) "$ref").truthy = false := by
  induction fs generalizing gs with
  | nil =>
    rw [resolveObjectFields] at h
    cases h
    exact hf
  | cons p fs ih =>
    obtain ⟨k, v⟩ := p
    rw [resolveObjectFields] at h
    simp only [Option.bind_eq_bind, Option.pure_def, Option.bind_eq_some,
      Option.some.injEq] at h
    obtain ⟨w, hw, ws, hws, rfl⟩ := h
    by_cases hk : k = "$ref"
    · subst hk
      have hv : (jsField (.obj (("$ref", v) :: fs)) "$ref") = v := by
        simp [jsField]
      rw [hv] at hf
      rw [resolve_falsy hf] at hw
      cases hw
      simp [jsField, hf]
    · have hv : (jsField (.obj ((k, v) :: fs)) "$ref") = jsField (.obj fs) "$ref" := by
        simp [jsField, hk]
      rw [hv] at hf
      have := ih hws hf
      simpa [jsField, hk] using this

/-- One-step form: resolving an array value rebuilds its elements. -/
theorem resolve_arr (fuel : Nat) (root : JSVal) (xs : List JSVal) :
    resolveSchemaReferences fuel (.arr xs) root =
      (resolveArrayItems fuel root xs).map .arr := by
  rw [resolveSchemaReferences.eq_def]
  simp [JSVal.truthy]

/-- One-step form: resolving an object without a truthy `$ref` rebuilds its
fields. -/
theorem resolve_obj_norefs {fields : List (String × JSVal)}
    (hfal : (jsField (.obj fields) "$ref").truthy = false)
    (fuel : Nat) (root : JSVal) :
    resolveSchemaReferences fuel (.obj fields) root =
      (resolveObjectFields fuel root fields).map .obj := by
  rw [resolveSchemaReferences.eq_def]
  simp only [hfal]
  simp [JSVal.truthy]

/-- One-step form: a truthy string `$ref` whose path fails soft returns the
node unchanged. -/
theorem resolve_obj_refMissing {fields : List (String × JSVal)} {rs : String}
    (htr : (jsField (.obj fields) "$ref").truthy = true)
    (hr : jsField (.obj fields) "$ref" = .str rs) {root : JSVal}
    (hmiss : followRefPath root (jsSplitSlash (jsReplaceFirst rs "#/")) = .missing)
    (fuel : Nat) :
    resolveSchemaReferences fuel (.obj fields) root = some (.obj fields) := by
  have hne : rs ≠ "" := by
    rw [hr] at htr
    simpa [JSVal.truthy] using htr
  rw [resolveSchemaReferences.eq_def]
  simp only [htr, hr, hmiss]
  simp [JSVal.truthy, hne]

/-- One-step form: a truthy string `$ref` whose path crashes produces no
result. -/
theorem resolve_obj_refCrash {fields : List (String × JSVal)} {rs : String}
    (htr : (jsField (.obj fields) "$ref").truthy = true)
    (hr : jsField (.obj fields) "$ref" = .str rs) {root : JSVal}
    (hcrash : followRefPath root (jsSplitSlash (jsReplaceFirst rs "#/")) = .crash)
    (fuel : Nat) :
    resolveSchemaReferences fuel (.obj fields) root = none := by
  have hne : rs ≠ "" := by
    rw [hr] at htr
    simpa [JSVal.truthy] using htr
  rw [resolveSchemaReferences.eq_def]
  simp only [htr, hr, hcrash]
  simp [JSVal.truthy, hne]

/-- One-step form: a found `$ref` target is resolved recursively with one
unit of fuel spent. -/
theorem resolve_obj_refFound_succ {fields : List (String × JSVal)} {rs : String}
    (htr : (jsField (.obj fields) "$ref").truthy = true)
    (hr : jsField (.obj fields) "$ref" = .str rs) {root resolved : JSVal}
    (hfound : followRefPath root (jsSplitSlash (jsReplaceFirst rs "#/")) = .found resolved)
    (n : Nat) :
    resolveSchemaReferences (n + 1) (.obj fields) root =
      resolveSchemaReferences n resolved root := by
  have hne : rs ≠ "" := by
    rw [hr] at htr
    simpa [JSVal.truthy] using htr
  rw [resolveSchemaReferences.eq_def]
  simp only [htr, hr, hfound]
  simp [JSVal.truthy, hne]

/-- One-step form: a found `$ref` target with no fuel left models
divergence. -/
theorem resolve_obj_refFound_zero {fields : List (String × JSVal)} {rs : String}
    (htr : (jsField (.obj fields) "$ref").truthy = true)
    (hr : jsField (.obj fields) "$ref" = .str rs) {root resolved : JSVal}
    (hfound : followRefPath root (jsSplitSlash (jsReplaceFirst rs "#/")) = .found resolved) :
    resolveSchemaReferences 0 (.obj fields) root = none := by
  have hne : rs ≠ "" := by
    rw [hr] at htr
    simpa [JSVal.truthy] using htr
  rw [resolveSchemaReferences.eq_def]
  simp only [htr, hr, hfound]
  simp [JSVal.truthy, hne]

/-- One-step form: a truthy non-string `$ref` crashes `.replace`. -/
theorem resolve_obj_refNonStr {fields : List (String × JSVal)}
    (htr : (jsField (.obj fields) "$ref").truthy = true)
    (hnostr : ∀ rs : String, jsField (.obj fields) "$ref" = .str rs → False)
    (fuel : Nat) (root : JSVal) :
    resolveSchemaReferences fuel (.obj fields) root = none := by
  rw [resolveSchemaReferences.eq_def]
  simp only [htr]
  rcases hv : jsField (.obj fields) "$ref" with _ | _ | b | n | s | xs | fs
  · rw [hv] at htr; simp [JSVal.truthy] at htr
  · rw [hv] at htr; simp [JSVal.truthy] at htr
  · simp [JSVal.truthy]
  · simp [JSVal.truthy]
  · exact (hnostr s hv).elim
  · simp [JSVal.truthy]
  · simp [JSVal.truthy]

/-- One-step form: truthy booleans pass through. -/
theorem resolve_bool_true (fuel : Nat) (root : JSVal) :
    resolveSchemaReferences fuel (.bool true) root = some (.bool true) := by
  rw [resolveSchemaReferences.eq_def]
  simp [JSVal.truthy]

/-- One-step form: nonzero numbers pass through. -/
theorem resolve_num {n : Int} (hn : n ≠ 0) (fuel : Nat) (root : JSVal) :
    resolveSchemaReferences fuel (.num n) root = some (.num n) := by
  rw [resolveSchemaReferences.eq_def]
  simp [JSVal.truthy, hn]

/-- One-step form: nonempty strings pass through. -/
theorem resolve_str {s : String} (hs : s ≠ "") (fuel : Nat) (root : JSVal) :
    resolveSchemaReferences fuel (.str s) root = some (.str s) := by
  rw [resolveSchemaReferences.eq_def]
  simp [JSVal.truthy, hs]

/-- One-step form for field lists. -/
theorem resolveObjectFields_cons (fuel : Nat) (root : JSVal) (k : String)
    (v : JSVal) (fs : List (String × JSVal)) :
    resolveObjectFields fuel root ((k, v) :: fs) =
      (resolveSchemaReferences fuel v root).bind (fun w =>
        (resolveObjectFields fuel root fs).map (fun ws => (k, w) :: ws)) := by
  rw [resolveObjectFields]
  rcases resolveSchemaReferences fuel v root <;>
    rcases resolveObjectFields fuel root fs <;> simp

/-- One-step form for element lists. -/
theorem resolveArrayItems_cons (fuel : Nat) (root : JSVal) (x : JSVal)
    (xs : List JSVal) :
    resolveArrayItems fuel root (x :: xs) =
      (resolveSchemaReferences fuel x root).bind (fun y =>
        (resolveArrayItems fuel root xs).map (fun ys => y :: ys)) := by
  rw [resolveArrayItems]
  rcases resolveSchemaReferences fuel x root <;>
    rcases resolveArrayItems fuel root xs <;> simp

/-- Joint idempotence statement for the resolver and its two rebuilding
helpers, by the functional (mutual) induction of `resolveSchemaReferences`:
whatever a terminating first pass outputs is a fixed point of any second
pass. -/
theorem resolve_idem_all :
    (∀ (fuel : Nat) (schema rootSchema : JSVal), ∀ r,
        resolveSchemaReferences fuel schema rootSchema = some r →
        ∀ m, resolveSchemaReferences m r rootSchema = some r) ∧
    (∀ (fuel : Nat) (rootSchema : JSVal) (fs : List (String × JSVal)), ∀ gs,
        resolveObjectFields fuel rootSchema fs = some gs →
        ∀ m, resolveObjectFields m rootSchema gs = some gs) ∧
    (∀ (fuel : Nat) (rootSchema : JSVal) (xs : List JSVal), ∀ ys,
        resolveArrayItems fuel rootSchema xs = some ys →
        ∀ m, resolveArrayItems m rootSchema ys = some ys) := by
  refine resolveSchemaReferences.mutual_induct
    (fun fuel schema rootSchema => ∀ r,
      resolveSchemaReferences fuel schema rootSchema = some r →
      ∀ m, resolveSchemaReferences m r rootSchema = some r)
    (fun fuel rootSchema fs => ∀ gs,
      resolveObjectFields fuel rootSchema fs = some gs →
      ∀ m, resolveObjectFields m rootSchema gs = some gs)
    (fun fuel rootSchema xs => ∀ ys,
      resolveArrayItems fuel rootSchema xs = some ys →
      ∀ m, resolveArrayItems m rootSchema ys = some ys)
    ?_ ?_ ?_ ?_ ?_ ?_ ?_ ?_ ?_ ?_ ?_ ?_ ?_
  · -- falsy schema
    intro fuel schema root h r hr m
    rw [resolve_falsy h] at hr
    cases hr
    exact resolve_falsy h m root
  · -- array rebuild
    intro fuel root xs _ ih r hr m
    rw [resolve_arr] at hr
    simp only [Option.map_eq_some'] at hr
    obtain ⟨ys, hys, rfl⟩ := hr
    rw [resolve_arr]
    simp [ih ys hys m]
  · -- $ref crash: no output
    intro fuel root fields htr rs hr hcrash _ r hres
    rw [resolve_obj_refCrash htr hr hcrash] at hres
    cases hres
  · -- $ref missing: fail-soft returns the node unchanged, both times
    intro fuel root fields htr rs hr hmiss _ r hres m
    rw [resolve_obj_refMissing htr hr hmiss] at hres
    cases hres
    exact resolve_obj_refMissing htr hr hmiss m
  · -- $ref found but fuel exhausted: no output
    intro root fields htr rs hr resolved hfound _ r hres
    rw [resolve_obj_refFound_zero htr hr hfound] at hres
    cases hres
  · -- $ref found with fuel: defer to the resolved target
    intro root fields htr rs hr resolved hfound n _ ih r hres m
    have hres' : resolveSchemaReferences (n + 1) (.obj fields) root = some r := hres
    rw [resolve_obj_refFound_succ htr hr hfound] at hres'
    exact ih r hres' m
  · -- truthy non-string $ref: crash, no output
    intro fuel root fields htr hnostr _ r hres
    rw [resolve_obj_refNonStr htr hnostr] at hres
    cases hres
  · -- object rebuild: a rebuilt object still has no truthy $ref
    intro fuel root fields hne _ ih r hres m
    have hfal : (jsField (.obj fields) "$ref").truthy = false :=
      Bool.not_eq_true _ ▸ hne
    rw [resolve_obj_norefs hfal] at hres
    simp only [Option.map_eq_some'] at hres
    obtain ⟨gs, hgs, rfl⟩ := hres
    have hfal2 := resolveObjectFields_refFalsy hgs hfal
    rw [resolve_obj_norefs hfal2]
    simp [ih gs hgs m]
  · -- remaining truthy scalars resolve to themselves
    intro fuel root s hnarr hnobj htr r hres m
    have htr' : s.truthy = true := by
      rcases hb : s.truthy
      · exact absurd hb htr
      · rfl
    match s with
    | .undefined => simp [JSVal.truthy] at htr'
    | .null => simp [JSVal.truthy] at htr'
    | .bool b =>
      have hb : b = true := by simpa [JSVal.truthy] using htr'
      subst hb
      rw [resolve_bool_true] at hres
      cases hres
      exact resolve_bool_true m root
    | .num n =>
      have hn : n ≠ 0 := by simpa [JSVal.truthy] using htr'
      rw [resolve_num hn] at hres
      cases hres
      exact resolve_num hn m root
    | .str s =>
      have hs : s ≠ "" := by simpa [JSVal.truthy] using htr'
      rw [resolve_str hs] at hres
      cases hres
      exact resolve_str hs m root
    | .arr xs => exact (hnarr xs rfl).elim
    | .obj fs => exact (hnobj fs rfl).elim
  · -- empty field list
    intro fuel root gs h m
    rw [resolveObjectFields] at h
    cases h
    rw [resolveObjectFields]
  · -- field cons
    intro fuel root k v fs ih1 ih2 gs h m
    rw [resolveObjectFields_cons] at h
    simp only [Option.bind_eq_some, Option.map_eq_some'] at h
    obtain ⟨w, hw, ws, hws, rfl⟩ := h
    rw [resolveObjectFields_cons]
    simp [ih1 w hw m, ih2 ws hws m]
  · -- empty element list
    intro fuel root ys h m
    rw [resolveArrayItems] at h
    cases h
    rw [resolveArrayItems]
  · -- element cons
    intro fuel root x xs ih1 ih2 ys h m
    rw [resolveArrayItems_cons] at h
    simp only [Option.bind_eq_some, Option.map_eq_some'] at h
    obtain ⟨y, hy, ys', hys, rfl⟩ := h
    rw [resolveArrayItems_cons]
    simp [ih1 y hy m, ih2 ys' hys m]

/-- C4: `resolveSchemaReferences` is idempotent — whenever a first
resolution pass against a root schema terminates with output `r`, resolving
`r` again with the same root (at any fuel, in particular the same) returns
exactly `r`: deep equality of JS values is Lean equality of `JSVal`. -/
theorem resolveSchemaReferences_idempotent (fuel m : Nat)
    (schema rootSchema r : JSVal)
    (h : resolveSchemaReferences fuel schema rootSchema = some r) :
    resolveSchemaReferences m r rootSchema = some r :=
  resolve_idem_all.1 fuel schema rootSchema r h m

/-- Witness for C4 at a concrete input: a `$ref` to `#/definitions/A` is
resolved against a root schema carrying that definition, and resolving the
result again returns it unchanged. -/
theorem resolveSchemaReferences_idempotent_witness :
    resolveSchemaReferences 1 (.obj [("$ref", .str "#/definitions/A")])
      (.obj [("definitions", .obj [("A", .obj [("type", .str "string")])])]) =
      some (.obj [("type", .str "string")]) ∧
    resolveSchemaReferences 1 (.obj [("type", .str "string")])
      (.obj [("definitions", .obj [("A", .obj [("type", .str "string")])])]) =
      some (.obj [("type", .str "string")]) := by
  have h1 : resolveSchemaReferences 1 (.obj [("$ref", .str "#/definitions/A")])
      (.obj [("definitions", .obj [("A", .obj [("type", .str "string")])])]) =
      some (.obj [("type", .str "string")]) := by
    have e1 := @resolve_obj_refFound_succ [("$ref", JSVal.str "#/definitions/A")]
      "#/definitions/A" rfl rfl
      (JSVal.obj [("definitions", .obj [("A", .obj [("type", .str "string")])])])
      (JSVal.obj [("type", .str "string")]) rfl 0
    have e2 := @resolve_obj_norefs [("type", JSVal.str "string")] rfl 0
      (JSVal.obj [("definitions", .obj [("A", .obj [("type", .str "string")])])])
    have e3 := resolveObjectFields_cons 0
      (JSVal.obj [("definitions", .obj [("A", .obj [("type", .str "string")])])])
      "type" (JSVal.str "string") []
    have e4 := @resolve_str "string" (by decide) 0
      (JSVal.obj [("definitions", .obj [("A", .obj [("type", .str "string")])])])
    have e5 : resolveObjectFields 0
        (JSVal.obj [("definitions", .obj [("A", .obj [("type", .str "string")])])]) [] =
        some [] := by rw [resolveObjectFields]
    have e6 : (resolveObjectFields 0
        (JSVal.obj [("definitions", .obj [("A", .obj [("type", .str "string")])])])
        [("type", JSVal.str "string")]).map JSVal.obj =
        some (.obj [("type", .str "string")]) := by
      rw [e3, e4, e5]
      rfl
    exact e1.trans (e2.trans e6)
  exact ⟨h1, resolveSchemaReferences_idempotent 1 1 _ _ _ h1⟩

/-- Escapes for `JSON.stringify` string output (the escapes the embedded
values can contain). -/
def jsonQuoteChar (c : Char) : String :=
  if c = '"' then "\\\""
  else if c = '\\' then "\\\\"
  else if c = '\n' then "\\n"
  else if c = '\t' then "\\t"
  else if c = '\r' then "\\r"
  else String.singleton c

/-- A JSON string literal as produced by `JSON.stringify`. -/
def jsonQuote (s : String) : String :=
  "\"" ++ String.join (s.toList.map jsonQuoteChar) ++ "\""

/-- An indentation prefix of `n` spaces. -/
def indentSpaces (n : Nat) : String := String.mk (List.replicate n ' ')

mutual

/-- `JSON.stringify(v, null, 2)` with the closing bracket of the rendered
value at column `indent`: `undefined` yields no output, object fields with
`undefined` values are skipped, `undefined` array elements render as
`null`. -/
def jsonStringify (indent : Nat) : JSVal → Option String
  | .undefined => none
  | .null => some "null"
  | .bool b => some (cond b "true" "false")
  | .num n => some (toString n)
  | .str s => some (jsonQuote s)
  | .arr [] => some "[]"
  | .arr (x :: xs) =>
    some ("[\n" ++ String.intercalate ",\n" (stringifyItems (indent + 2) (x :: xs)) ++
      "\n" ++ indentSpaces indent ++ "]")
  | .obj fs =>
    match stringifyFields (indent + 2) fs with
    | [] => some "\x7b\x7d"
    | l => some ("\x7b\n" ++ String.intercalate ",\n" l ++ "\n" ++ indentSpaces indent ++ "\x7d")

/-- Array elements of a pretty-printed `JSON.stringify`. -/
def stringifyItems (indent : Nat) : List JSVal → List String
  | [] => []
  | v :: vs =>
    (indentSpaces indent ++ ((jsonStringify indent v).getD "null")) :: stringifyItems indent vs

/-- Object fields of a pretty-printed `JSON.stringify`. -/
def stringifyFields (indent : Nat) : List (String × JSVal) → List String
  | [] => []
  | (k, v) :: fs =>
    match jsonStringify indent v with
    | none => stringifyFields indent fs
    | some sv => (indentSpaces indent ++ jsonQuote k ++ ": " ++ sv) :: stringifyFields indent fs

end

/-- `str += JSON.stringify(v, null, 2)`: string coercion of the stringify
result (`undefined` coerces to `"undefined"`). -/
def stringifyCoerce (v : JSVal) : String :=
  match jsonStringify 0 v with
  | some s => s
  | none => "undefined"

/-- `Route` (`src/types.ts`), as materialized by the `onRoute` hook.  The
schema-derived fields are dynamically shaped JS values; `methods` holds the
validated HTTP method strings; `tags` is the array the hook always
materializes. -/
structure Route where
  methods : List String
  url : String
  name : JSVal
  summary : JSVal
  description : JSVal
  tags : List JSVal
  headers : JSVal
  querystring : JSVal
  body : JSVal
  params : JSVal
  response : JSVal

/-- The plugin options consulted by the embedded components
(`McpPluginOptions` in `src/types.ts`; fields that only configure the
transport wiring are not consulted by these components and are omitted).
The custom `filter` returns `boolean | undefined`. -/
structure McpPluginOptions where
  describeFullSchema : Bool
  skipHeadRoutes : Bool
  skipOptionsRoutes : Bool
  filter : Option (Route → Option Bool)

/-- `McpTool` (`src/types.ts`): what `convertRouteToTool` produces. -/
structure McpTool where
  name : JSVal
  description : JSVal
  inputSchema : JSVal

/-- JS `Map.prototype.set` / JS object property assignment on an
association list: replace the value in place if the key exists, else append
a new entry. -/
def jsMapSet {α : Type} (m : List (String × α)) (k : String) (v : α) :
    List (String × α) :=
  match m with
  | [] => [(k, v)]
  | p :: ps => if p.1 = k then (k, v) :: ps else p :: jsMapSet ps k v

/-- Lookup in an association list (first match). -/
def jsMapGet {α : Type} (m : List (String × α)) (k : String) : Option α :=
  (m.find? (fun p => p.1 == k)).map (fun p => p.2)

/-- `Array.prototype.includes` / `String.prototype.includes` as used on the
`required` list: array membership by strict equality with the property key,
substring test on strings, `false` otherwise. -/
def jsIncludes (v : JSVal) (k : String) : Bool :=
  match v with
  | .arr xs => xs.any (fun x => match x with | .str s => s == k | _ => false)
  | .str s => decide (k.toList <:+: s.toList)
  | _ => false

/-- Description text for a header property:
`schema.description ?? "Header: <key>"`. -/
def headerPropDesc (k : String) (schema : JSVal) : JSVal :=
  jsNullish (jsField schema "description") (.str ("Header: " ++ k))

/-- Description text for a path-parameter property. -/
def pathPropDesc (k : String) (_schema : JSVal) : JSVal :=
  .str ("Path parameter: " ++ k)

/-- Description text for a query-parameter property. -/
def queryPropDesc (k : String) (_schema : JSVal) : JSVal :=
  .str ("Query parameter: " ++ k)

/-- Description text for a body-parameter property. -/
def bodyPropDesc (k : String) (_schema : JSVal) : JSVal :=
  .str ("Body parameter: " ++ k)

/-- The property record `buildToolInputSchema` writes for one declared
property. -/
def mkPropEntry (mkDesc : String → JSVal → JSVal) (k : String) (schema : JSVal) :
    JSVal :=
  .obj [("type", getSchemaType schema), ("title", .str k),
        ("description", mkDesc k schema)]

/-- One parameter group of `buildToolInputSchema`
(`src/services/tool-converter.ts`): when the group is truthy, iterate
`Object.entries(group.properties || \x7b\x7d)`, assign each property's record
into the shared map, and collect keys listed in `group.required || []`. -/
def processGroup (mkDesc : String → JSVal → JSVal) (group : JSVal)
    (st : List (String × JSVal) × List String) :
    List (String × JSVal) × List String :=
  if group.truthy = false then st
  else
    (jsEntries (jsOr (jsField group "properties") (.obj []))).foldl
      (fun acc kv =>
        (jsMapSet acc.1 kv.1 (mkPropEntry mkDesc kv.1 kv.2),
         if jsIncludes (jsOr (jsField group "required") (.arr [])) kv.1
           then acc.2 ++ [kv.1] else acc.2))
      st

/-- `buildToolInputSchema` (identical in `src/services/tool-converter.ts`
and in the older variant of the same file): one flat property map filled
from the headers, path-params, query, body groups in that fixed order, a
combined `required` list (`undefined` when empty), and a
`"<name>Parameters"` title. -/
def buildToolInputSchema (route : Route) : JSVal :=
  let st1 := processGroup headerPropDesc route.headers ([], [])
  let st2 := processGroup pathPropDesc route.params st1
  let st3 := processGroup queryPropDesc route.querystring st2
  let st4 := processGroup bodyPropDesc route.body st3
  .obj [("type", .str "object"),
        ("properties", .obj st4.1),
        ("required", if st4.2.length > 0 then .arr (st4.2.map .str) else .undefined),
        ("title", .str (jsToString route.name ++ "Parameters"))]

/-- `buildToolName` (identical in both converter variants). -/
def buildToolName (route : Route) : JSVal := route.name

/-- `asMDJson` from `src/services/tool-converter.ts`. -/
def asMDJson (o : JSVal) : String :=
  "```json\n" ++ stringifyCoerce o ++ "\n```"

/-- The description fragments the current `buildToolDescription`
(`src/services/tool-converter.ts`) pushes, in push order. -/
def buildToolDescriptionParts (options : McpPluginOptions) (route : Route) :
    List JSVal :=
  let parts : List JSVal := [route.summary, route.description]
  let parts := if route.tags.length > 0
    then parts ++ [.str ("Tags: " ++ jsJoinWith ", " route.tags)] else parts
  if route.response.truthy && options.describeFullSchema then
    let parts := parts ++ [.str "### Response:"]
    let ex := generateExampleFromSchema route.response
    let parts := if ex.truthy
      then parts ++ [.str ("**Example Response:**\n" ++ asMDJson ex)] else parts
    if options.describeFullSchema
      then parts ++ [.str ("**Output Schema:**" ++ asMDJson route.response)] else parts
  else parts

/-- `buildToolDescription` from the current `src/services/tool-converter.ts`:
`description.filter(Boolean).join('\n\n') || route.name`. -/
def buildToolDescription (options : McpPluginOptions) (route : Route) : JSVal :=
  let joined := jsJoinWith "\n\n"
    ((buildToolDescriptionParts options route).filter JSVal.truthy)
  if joined = "" then route.name else .str joined

/-- `buildToolDescription` from the older variant of the converter
(string-concatenation style): starts from `route.summary` itself and
appends with `+=`, so an absent summary is coerced to the string
`"undefined"` once anything is appended, and the whole `route.summary`
value is returned raw when nothing is. -/
def buildToolDescriptionOld (options : McpPluginOptions) (route : Route) : JSVal :=
  let d0 : JSVal := route.summary
  let d1 : JSVal := if route.description.truthy
    then .str (jsToString d0 ++ "\n\n" ++ jsToString route.description) else d0
  let d2 : JSVal := if route.tags.length > 0
    then .str (jsToString d1 ++ "\n\nTags: " ++ jsJoinWith ", " route.tags) else d1
  let d3 : JSVal :=
    if route.response.truthy && options.describeFullSchema then
      let e1 := jsToString d2 ++ "\n\n### Response:"
      let ex := generateExampleFromSchema route.response
      let e2 := if ex.truthy
        then e1 ++ "\n\n**Example Response:**\n```json\n" ++ stringifyCoerce ex ++ "\n```"
        else e1
      let e3 := if options.describeFullSchema
        then e2 ++ "\n\n**Output Schema:**\n```json\n" ++ stringifyCoerce route.response ++ "\n```"
        else e2
      .str e3
    else d2
  if d3.truthy then d3 else route.name

/-- `convertRouteToTool` from the current `src/services/tool-converter.ts`. -/
def convertRouteToTool (options : McpPluginOptions) (route : Route) : McpTool :=
  ⟨buildToolName route, buildToolDescription options route,
    buildToolInputSchema route⟩

/-- `convertRouteToTool` from the older converter variant (its
`buildToolName` and `buildToolInputSchema` are textually identical to the
current ones, so they are shared; only the description builder differs). -/
def convertRouteToToolOld (options : McpPluginOptions) (route : Route) : McpTool :=
  ⟨buildToolName route, buildToolDescriptionOld options route,
    buildToolInputSchema route⟩

/-- `filterRoutes` from `src/services/route-filter.ts`: drop HEAD routes
when `skipHeadRoutes`, OPTIONS routes when `skipOptionsRoutes`, and routes
the custom predicate rejects (falsy result, including `undefined`). -/
def filterRoutes (options : McpPluginOptions) (routes : List Route) : List Route :=
  routes.filter (fun route =>
    if options.skipHeadRoutes && route.methods.contains "HEAD" then false
    else if options.skipOptionsRoutes && route.methods.contains "OPTIONS" then false
    else
      match options.filter with
      | some f => match f route with | some b => b | none => false
      | none => true)

/-- The three buckets `prepareToolPayload` fills
(`McpToolPayload` without the unused `headers` field the handler never
initializes). -/
structure McpToolPayload where
  params : List (String × JSVal)
  query : List (String × JSVal)
  body : List (String × JSVal)

/-- `route.<group>?.properties?.[key]` is truthy. -/
def hasSchemaProp (group : JSVal) (k : String) : Bool :=
  (jsField (jsField group "properties") k).truthy

/-- `prepareToolPayload` from `src/services/request-handler.ts`: each
argument entry goes to `params` if the key is a truthy property of the
path-param schema, else to `query` if of the query schema, else to
`body`. -/
def prepareToolPayload (route : Route) (args : List (String × JSVal)) :
    McpToolPayload :=
  args.foldl
    (fun payload kv =>
      if hasSchemaProp route.params kv.1 then
        ⟨payload.params ++ [kv], payload.query, payload.body⟩
      else if hasSchemaProp route.querystring kv.1 then
        ⟨payload.params, payload.query ++ [kv], payload.body⟩
      else
        ⟨payload.params, payload.query, payload.body ++ [kv]⟩)
    ⟨[], [], []⟩

/-- The raw `RouteOptions` the `onRoute` hook receives from the framework:
a method value (string or array), the URL template, and the dynamic
`config` / `schema` objects. -/
structure RawRouteOptions where
  method : JSVal
  url : String
  config : JSVal
  schema : JSVal

/-- The recognized HTTP method vocabulary (`src/index.ts`). -/
def validHttpMethods : List String :=
  ["DELETE", "GET", "HEAD", "PATCH", "POST", "PUT", "OPTIONS"]

/-- `url.replace(/[/:\x7b\x7d]/g, "_")`: every occurrence of `/`, `:`,
`\x7b`, `\x7d` becomes `_`. -/
def replaceUrlChars (url : String) : String :=
  String.mk (url.toList.map (fun c =>
    if c = '/' ∨ c = ':' ∨ c = '\x7b' ∨ c = '\x7d' then '_' else c))

/-- Tool-name computation of the `onRoute` hook (`src/index.ts`):
`config?.mcp?.name || schema?.operationId ||
 `${method}_${url.replace(/[/:\x7b\x7d]/g, "_")}``. -/
def computeToolName (ro : RawRouteOptions) : JSVal :=
  jsOr (jsField (jsField ro.config "mcp") "name")
    (jsOr (jsField ro.schema "operationId")
      (.str (jsToString ro.method ++ "_" ++ replaceUrlChars ro.url)))

/-- What one `onRoute` invocation does to the registry. -/
inductive RegOutcome where
  | skipped : RegOutcome
  | registered (r : Route) : RegOutcome

/-- Whether the route's per-route configuration marks it hidden
(`routeOptions.config?.mcp?.hidden` is truthy). -/
def isHiddenRoute (ro : RawRouteOptions) : Bool :=
  (jsField (jsField ro.config "mcp") "hidden").truthy

/-- Tag collection of the `onRoute` hook:
`(schema as any)?.tags || []`, spread into a fresh array when it is one. -/
def extractTags (schema : JSVal) : List JSVal :=
  match jsOr (jsField schema "tags") (.arr []) with
  | .arr xs => xs
  | _ => []

/-- `Array.isArray(method) ? method : [method]`. -/
def methodAsList (methodVal : JSVal) : List JSVal :=
  match methodVal with
  | .arr xs => xs
  | m => [m]

/-- Method extraction of the `onRoute` hook: wrap a single method value in
a list, then keep exactly the strings of the recognized vocabulary
(`includes` compares with strict equality, so only exact method strings
survive). -/
def extractMethods (methodVal : JSVal) : List String :=
  (methodAsList methodVal).filterMap (fun m =>
    match m with
    | JSVal.str s => if s ∈ validHttpMethods then some s else none
    | _ => none)

/-- The `onRoute` hook (`src/index.ts`): skip hidden routes, compute the
name, collect tags, filter the method list to the valid vocabulary and skip
the route when none survives, resolve the four schema fragments against the
route's own schema, and emit the descriptor.  `none` models a diverging or
crashing schema resolution. -/
def onRoute (fuel : Nat) (ro : RawRouteOptions) : Option RegOutcome :=
  if isHiddenRoute ro then some .skipped
  else
    let name := computeToolName ro
    let tags := extractTags ro.schema
    let methods := extractMethods ro.method
    if methods = [] then some .skipped
    else do
      let q ← resolveSchemaReferences fuel (jsField ro.schema "querystring") ro.schema
      let b ← resolveSchemaReferences fuel (jsField ro.schema "body") ro.schema
      let p ← resolveSchemaReferences fuel (jsField ro.schema "params") ro.schema
      let resp ← resolveSchemaReferences fuel
        (jsOr (jsField (jsField ro.schema "response") "200")
          (jsField (jsField ro.schema "response") "2xx")) ro.schema
      pure (.registered ⟨methods, ro.url, name,
        jsField ro.schema "summary",
        jsOr (jsField (jsField ro.config "mcp") "description")
          (jsField ro.schema "description"),
        tags, .undefined, q, b, p, resp⟩)

/-- The registry built by firing `onRoute` once per registration event, in
order. -/
def buildRegistry (fuel : Nat) : List RawRouteOptions → Option (List Route)
  | [] => some []
  | ro :: rest => do
    let out ← onRoute fuel ro
    let rs ← buildRegistry fuel rest
    match out with
    | .skipped => pure rs
    | .registered r => pure (r :: rs)

/-- The ListTools handler body (`src/index.ts`): filter the registry, then
convert each surviving route. -/
def listTools (options : McpPluginOptions) (routes : List Route) : List McpTool :=
  (filterRoutes options routes).map (convertRouteToTool options)

/-- Session map events: an SSE connection opens (the transport object is an
abstract token) or closes. -/
inductive SessionEvent where
  | connect (sid : String) (transport : Nat) : SessionEvent
  | close (sid : String) : SessionEvent

/-- `Map.prototype.delete` on the session map. -/
def mapDelete {α : Type} (m : List (String × α)) (k : String) :
    List (String × α) :=
  m.filter (fun p => p.1 != k)

/-- `activeTransports` bookkeeping (`src/index.ts`): `set` on connect,
`delete` on close. -/
def stepSession (m : List (String × Nat)) : SessionEvent → List (String × Nat)
  | .connect sid t => jsMapSet m sid t
  | .close sid => mapDelete m sid

/-- What the `POST \x7bmount\x7d/messages` handler replies. -/
inductive MessageOutcome where
  | response (status : Nat) (body : JSVal) : MessageOutcome
  | delivered (transport : Nat) : MessageOutcome

/-- The messages-endpoint handler (`src/index.ts`): unknown session → 404
with `\x7berror:"Session not found"\x7d`; a throwing
`handlePostMessage` → 500 with `\x7berror:"Internal server error"\x7d`;
otherwise the message is delivered to the session's transport. -/
def handleMessagesPost (m : List (String × Nat)) (sid : String)
    (handlerThrows : Bool) : MessageOutcome :=
  match jsMapGet m sid with
  | none => .response 404 (.obj [("error", .str "Session not found")])
  | some t =>
    if handlerThrows then .response 500 (.obj [("error", .str "Internal server error")])
    else .delivered t

/-- `contains` on the method list agrees with membership. -/
theorem methods_contains_iff (ms : List String) (s : String) :
    ms.contains s = true ↔ s ∈ ms := by
  simp [List.contains_iff_exists_mem_beq, beq_iff_eq, eq_comm]

/-- The custom-predicate clause of the route filter in propositional
form. -/
theorem customFilter_iff (options : McpPluginOptions) (route : Route) :
    (match options.filter with
      | some f => (match f route with | some b => b | none => false)
      | none => true) = true ↔
    (∀ f, options.filter = some f → f route = some true) := by
  rcases options.filter with _ | f
  · simp
  · rcases hf : f route with _ | b
    · simp [hf]
    · rcases b <;> simp [hf]

/-- C8: `filterRoutes` is a pure filter of the route list: the output is a
sublist of the input (so the input is untouched and relative order is
preserved), and a route survives iff it is in the input, is not a
HEAD-carrying route while `skipHeadRoutes` is enabled, is not an
OPTIONS-carrying route while `skipOptionsRoutes` is enabled, and is not
rejected (falsy result, including `undefined`) by a configured custom
predicate. -/
theorem filterRoutes_spec (options : McpPluginOptions) (routes : List Route) :
    (filterRoutes options routes).Sublist routes ∧
    (∀ route : Route, route ∈ filterRoutes options routes ↔
      route ∈ routes ∧
      ¬(options.skipHeadRoutes = true ∧ "HEAD" ∈ route.methods) ∧
      ¬(options.skipOptionsRoutes = true ∧ "OPTIONS" ∈ route.methods) ∧
      (∀ f, options.filter = some f → f route = some true)) := by
  refine ⟨List.filter_sublist routes, ?_⟩
  intro route
  rw [filterRoutes, List.mem_filter]
  have hA : (options.skipHeadRoutes && route.methods.contains "HEAD") = true ↔
      (options.skipHeadRoutes = true ∧ "HEAD" ∈ route.methods) := by
    rw [Bool.and_eq_true, methods_contains_iff]
  have hB : (options.skipOptionsRoutes && route.methods.contains "OPTIONS") = true ↔
      (options.skipOptionsRoutes = true ∧ "OPTIONS" ∈ route.methods) := by
    rw [Bool.and_eq_true, methods_contains_iff]
  constructor
  · rintro ⟨hmem, hpred⟩
    rcases ha : options.skipHeadRoutes && route.methods.contains "HEAD"
    · rcases hb : options.skipOptionsRoutes && route.methods.contains "OPTIONS"
      · simp only [ha, hb, Bool.false_eq_true, if_false] at hpred
        refine ⟨hmem, ?_, ?_, (customFilter_iff options route).mp hpred⟩
        · intro hc
          rw [← hA] at hc
          rw [hc] at ha
          cases ha
        · intro hc
          rw [← hB] at hc
          rw [hc] at hb
          cases hb
      · rw [ha, hb] at hpred
        simp at hpred
    · rw [ha] at hpred
      simp at hpred
  · rintro ⟨hmem, hnh, hno, hcust⟩
    refine ⟨hmem, ?_⟩
    have ha : (options.skipHeadRoutes && route.methods.contains "HEAD") = false := by
      rcases h : options.skipHeadRoutes && route.methods.contains "HEAD"
      · rfl
      · exact absurd (hA.mp h) hnh
    have hb : (options.skipOptionsRoutes && route.methods.contains "OPTIONS") = false := by
      rcases h : options.skipOptionsRoutes && route.methods.contains "OPTIONS"
      · rfl
      · exact absurd (hB.mp h) hno
    simp only [ha, hb, Bool.false_eq_true, if_false]
    exact (customFilter_iff options route).mpr hcust

/-- Unrolling `prepareToolPayload`'s fold: each bucket is the filter of the
argument list by its classification predicate, appended to the
accumulator. -/
theorem prepareToolPayload_foldl (route : Route) (args : List (String × JSVal))
    (acc : McpToolPayload) :
    args.foldl
      (fun payload kv =>
        if hasSchemaProp route.params kv.1 then
          ⟨payload.params ++ [kv], payload.query, payload.body⟩
        else if hasSchemaProp route.querystring kv.1 then
          ⟨payload.params, payload.query ++ [kv], payload.body⟩
        else
          ⟨payload.params, payload.query, payload.body ++ [kv]⟩)
      acc =
    ⟨acc.params ++ args.filter (fun kv => hasSchemaProp route.params kv.1),
     acc.query ++ args.filter (fun kv =>
       !hasSchemaProp route.params kv.1 && hasSchemaProp route.querystring kv.1),
     acc.body ++ args.filter (fun kv =>
       !hasSchemaProp route.params kv.1 && !hasSchemaProp route.querystring kv.1)⟩ := by
  induction args generalizing acc with
  | nil => simp
  | cons kv rest ih =>
    rcases hp : hasSchemaProp route.params kv.1
    · rcases hq : hasSchemaProp route.querystring kv.1
      · simp only [List.foldl_cons, hp, hq, Bool.false_eq_true, if_false, ih,
          List.filter_cons, Bool.not_false, Bool.and_self, Bool.and_false]
        simp [List.append_assoc]
      · simp only [List.foldl_cons, hp, hq, Bool.false_eq_true, if_false,
          if_true, ih, List.filter_cons, Bool.not_false, Bool.and_true,
          Bool.and_false]
        simp [List.append_assoc]
    · simp only [List.foldl_cons, hp, if_true, ih, List.filter_cons,
        Bool.not_true, Bool.false_and]
      simp [List.append_assoc]

/-- C2: the dispatcher's argument classification is total and exclusive.
Each bucket of `prepareToolPayload` is exactly the sublist of argument
entries selected by its predicate, checked in order: a key declared (truthy)
in the resolved path-param schema's properties goes to `params`; otherwise a
key declared in the query schema's properties goes to `query`; every other
entry goes to `body` — so every entry of `args` lands in exactly one
bucket. -/
theorem prepareToolPayload_spec (route : Route) (args : List (String × JSVal)) :
    prepareToolPayload route args =
      ⟨args.filter (fun kv => hasSchemaProp route.params kv.1),
       args.filter (fun kv =>
         !hasSchemaProp route.params kv.1 && hasSchemaProp route.querystring kv.1),
       args.filter (fun kv =>
         !hasSchemaProp route.params kv.1 && !hasSchemaProp route.querystring kv.1)⟩ ∧
    (∀ kv ∈ args,
      (kv ∈ (prepareToolPayload route args).params ↔
        hasSchemaProp route.params kv.1 = true) ∧
      (kv ∈ (prepareToolPayload route args).query ↔
        (hasSchemaProp route.params kv.1 = false ∧
         hasSchemaProp route.querystring kv.1 = true)) ∧
      (kv ∈ (prepareToolPayload route args).body ↔
        (hasSchemaProp route.params kv.1 = false ∧
         hasSchemaProp route.querystring kv.1 = false))) ∧
    (∀ kv ∈ args,
      (kv ∈ (prepareToolPayload route args).params ∧
        kv ∉ (prepareToolPayload route args).query ∧
        kv ∉ (prepareToolPayload route args).body) ∨
      (kv ∉ (prepareToolPayload route args).params ∧
        kv ∈ (prepareToolPayload route args).query ∧
        kv ∉ (prepareToolPayload route args).body) ∨
      (kv ∉ (prepareToolPayload route args).params ∧
        kv ∉ (prepareToolPayload route args).query ∧
        kv ∈ (prepareToolPayload route args).body)) := by
  have hmain : prepareToolPayload route args =
      ⟨args.filter (fun kv => hasSchemaProp route.params kv.1),
       args.filter (fun kv =>
         !hasSchemaProp route.params kv.1 && hasSchemaProp route.querystring kv.1),
       args.filter (fun kv =>
         !hasSchemaProp route.params kv.1 && !hasSchemaProp route.querystring kv.1)⟩ := by
    rw [prepareToolPayload, prepareToolPayload_foldl]
    simp
  have hbuckets : ∀ kv ∈ args,
      (kv ∈ (prepareToolPayload route args).params ↔
        hasSchemaProp route.params kv.1 = true) ∧
      (kv ∈ (prepareToolPayload route args).query ↔
        (hasSchemaProp route.params kv.1 = false ∧
         hasSchemaProp route.querystring kv.1 = true)) ∧
      (kv ∈ (prepareToolPayload route args).body ↔
        (hasSchemaProp route.params kv.1 = false ∧
         hasSchemaProp route.querystring kv.1 = false)) := by
    intro kv hkv
    rw [hmain]
    refine ⟨?_, ?_, ?_⟩
    · simp only [List.mem_filter]
      constructor
      · rintro ⟨-, h⟩; exact h
      · intro h; exact ⟨hkv, h⟩
    · simp only [List.mem_filter, Bool.and_eq_true, Bool.not_eq_true']
      constructor
      · rintro ⟨-, h⟩; exact h
      · intro h; exact ⟨hkv, h⟩
    · simp only [List.mem_filter, Bool.and_eq_true, Bool.not_eq_true']
      constructor
      · rintro ⟨-, h⟩; exact h
      · intro h; exact ⟨hkv, h⟩
  refine ⟨hmain, hbuckets, ?_⟩
  intro kv hkv
  obtain ⟨h1, h2, h3⟩ := hbuckets kv hkv
  rcases hp : hasSchemaProp route.params kv.1
  · rcases hq : hasSchemaProp route.querystring kv.1
    · refine Or.inr (Or.inr ⟨?_, ?_, ?_⟩)
      · rw [h1]; simp [hp]
      · rw [h2]; simp [hq]
      · rw [h3]; exact ⟨hp, hq⟩
    · refine Or.inr (Or.inl ⟨?_, ?_, ?_⟩)
      · rw [h1]; simp [hp]
      · rw [h2]; exact ⟨hp, hq⟩
      · rw [h3]; simp [hq]
  · refine Or.inl ⟨?_, ?_, ?_⟩
    · rw [h1]; exact hp
    · rw [h2]; simp [hp]
    · rw [h3]; simp [hp]

/-- C9: every descriptor the hook registers carries at least one method,
every one of which belongs to the recognized HTTP method vocabulary; the
hook discards routes whose filtered method set is empty. -/
theorem onRoute_methods_valid (fuel : Nat) (ro : RawRouteOptions) (r : Route)
    (h : onRoute fuel ro = some (.registered r)) :
    r.methods ≠ [] ∧ ∀ m ∈ r.methods, m ∈ validHttpMethods := by
  rw [onRoute] at h
  by_cases h1 : isHiddenRoute ro = true
  · simp [h1] at h
  · rw [Bool.not_eq_true] at h1
    simp only [h1, Bool.false_eq_true, if_false] at h
    by_cases h2 : extractMethods ro.method = []
    · simp [h2] at h
    · simp only [h2, if_false] at h
      simp only [Option.bind_eq_bind, Option.pure_def, Option.bind_eq_some,
        Option.some.injEq] at h
      obtain ⟨q, -, b, -, p, -, resp, -, hr⟩ := h
      cases hr
      refine ⟨h2, ?_⟩
      intro m hm
      simp only [extractMethods, List.mem_filterMap] at hm
      obtain ⟨x, -, hx⟩ := hm
      match x with
      | JSVal.str s =>
        by_cases hs : s ∈ validHttpMethods
        · simp only [hs, if_true, Option.some.injEq] at hx
          cases hx
          exact hs
        · simp [hs] at hx
      | JSVal.undefined | JSVal.null | JSVal.bool _ | JSVal.num _
      | JSVal.arr _ | JSVal.obj _ => cases hx

/-- Witness for C9: registering `GET /hello` with no config and no schema
yields the expected descriptor, whose method list is the nonempty, valid
`["GET"]`. -/
theorem onRoute_methods_valid_witness :
    onRoute 0 ⟨.str "GET", "/hello", .undefined, .undefined⟩ =
      some (.registered ⟨["GET"], "/hello", .str "GET__hello", .undefined, .undefined,
        [], .undefined, .undefined, .undefined, .undefined, .undefined⟩) ∧
    ((⟨["GET"], "/hello", .str "GET__hello", .undefined, .undefined,
        [], .undefined, .undefined, .undefined, .undefined, .undefined⟩ : Route).methods ≠ [] ∧
      ∀ m ∈ (⟨["GET"], "/hello", .str "GET__hello", .undefined, .undefined,
        [], .undefined, .undefined, .undefined, .undefined, .undefined⟩ : Route).methods,
        m ∈ validHttpMethods) := by
  have h : onRoute 0 ⟨.str "GET", "/hello", .undefined, .undefined⟩ =
      some (.registered ⟨["GET"], "/hello", .str "GET__hello", .undefined, .undefined,
        [], .undefined, .undefined, .undefined, .undefined, .undefined⟩) := by
    rw [onRoute]
    simp [isHiddenRoute, extractMethods, methodAsList, extractTags,
      computeToolName, jsOr, jsField, JSVal.truthy, jsToString,
      replaceUrlChars, validHttpMethods, resolve_undef]
  exact ⟨h, onRoute_methods_valid 0 _ _ h⟩

/-- A hidden route is discarded silently: no registry entry is created. -/
theorem onRoute_hidden {ro : RawRouteOptions} (h : isHiddenRoute ro = true)
    (fuel : Nat) : onRoute fuel ro = some .skipped := by
  rw [onRoute, h]
  simp

/-- C6: a route marked hidden at registration time creates no registry
entry — the registry built with the hidden registration event inserted
anywhere equals the registry built without it — and consequently no
catalogue produced afterward (for any filter configuration) ever contains a
tool derived from it. -/
theorem hidden_route_never_catalogued (fuel : Nat) (ro : RawRouteOptions)
    (h : isHiddenRoute ro = true) (pre post : List RawRouteOptions) :
    buildRegistry fuel (pre ++ ro :: post) = buildRegistry fuel (pre ++ post) ∧
    ∀ options : McpPluginOptions,
      (buildRegistry fuel (pre ++ ro :: post)).map (listTools options) =
        (buildRegistry fuel (pre ++ post)).map (listTools options) := by
  have hreg : buildRegistry fuel (pre ++ ro :: post) =
      buildRegistry fuel (pre ++ post) := by
    induction pre with
    | nil =>
      simp only [List.nil_append]
      rw [buildRegistry, onRoute_hidden h]
      rcases hrest : buildRegistry fuel post with _ | rs <;> simp [hrest]
    | cons ro2 rest ih =>
      simp only [List.cons_append]
      rw [buildRegistry, buildRegistry]
      rw [ih]
  exact ⟨hreg, fun options => by rw [hreg]⟩

/-- Witness for C6: a concrete hidden `GET /secret` registered between two
visible routes leaves both the registry and the catalogue (here under the
default-style options) unchanged. -/
theorem hidden_route_never_catalogued_witness :
    (buildRegistry 0 [⟨.str "GET", "/a", .undefined, .undefined⟩,
        ⟨.str "GET", "/secret",
          .obj [("mcp", .obj [("hidden", .bool true)])], .undefined⟩,
        ⟨.str "GET", "/b", .undefined, .undefined⟩] =
      buildRegistry 0 [⟨.str "GET", "/a", .undefined, .undefined⟩,
        ⟨.str "GET", "/b", .undefined, .undefined⟩]) ∧
    ((buildRegistry 0 [⟨.str "GET", "/a", .undefined, .undefined⟩,
        ⟨.str "GET", "/secret",
          .obj [("mcp", .obj [("hidden", .bool true)])], .undefined⟩,
        ⟨.str "GET", "/b", .undefined, .undefined⟩]).map
          (listTools ⟨false, true, true, none⟩) =
      (buildRegistry 0 [⟨.str "GET", "/a", .undefined, .undefined⟩,
        ⟨.str "GET", "/b", .undefined, .undefined⟩]).map
          (listTools ⟨false, true, true, none⟩)) := by
  have h := hidden_route_never_catalogued 0
    ⟨.str "GET", "/secret", .obj [("mcp", .obj [("hidden", .bool true)])], .undefined⟩
    (by simp [isHiddenRoute, jsField, JSVal.truthy])
    [⟨.str "GET", "/a", .undefined, .undefined⟩]
    [⟨.str "GET", "/b", .undefined, .undefined⟩]
  exact ⟨h.1, h.2 ⟨false, true, true, none⟩⟩

/-- Deleting a session removes its mapping. -/
theorem jsMapGet_mapDelete {α : Type} (m : List (String × α)) (sid : String) :
    jsMapGet (mapDelete m sid) sid = none := by
  induction m with
  | nil => rfl
  | cons p rest ih =>
    by_cases hk : p.1 = sid
    · simp only [mapDelete, jsMapGet, hk] at ih ⊢
      simpa using ih
    · simp only [mapDelete, List.filter_cons]
      have : (p.1 != sid) = true := by simp [hk]
      rw [this]
      simp only [if_true, jsMapGet, List.find?_cons]
      have : (p.1 == sid) = false := by simp [hk]
      rw [this]
      simpa [mapDelete, jsMapGet] using ih

/-- `Map.set` for a different key does not create a mapping for `sid`. -/
theorem jsMapGet_jsMapSet_ne {α : Type} (m : List (String × α)) (k sid : String)
    (v : α) (hne : k ≠ sid) (h : jsMapGet m sid = none) :
    jsMapGet (jsMapSet m k v) sid = none := by
  induction m with
  | nil =>
    simp only [jsMapSet, jsMapGet, List.find?_cons]
    have hb : (k == sid) = false := by simp [hne]
    rw [hb]
    rfl
  | cons p rest ih =>
    rw [jsMapSet]
    by_cases hk : p.1 = k
    · rw [if_pos hk]
      simp only [jsMapGet, List.find?_cons] at h ⊢
      have h1 : (k == sid) = false := by simp [hne]
      rw [h1]
      rcases h2 : (p.1 == sid) with _ | _
      · rw [h2] at h
        exact h
      · rw [h2] at h
        simp at h
    · rw [if_neg hk]
      simp only [jsMapGet, List.find?_cons] at h ⊢
      rcases h2 : (p.1 == sid) with _ | _
      · rw [h2] at h
        exact ih h
      · rw [h2] at h
        simp at h

/-- Deletion for a different key preserves the absence of a mapping. -/
theorem jsMapGet_mapDelete_none {α : Type} (m : List (String × α))
    (k sid : String) (h : jsMapGet m sid = none) :
    jsMapGet (mapDelete m k) sid = none := by
  induction m with
  | nil => rfl
  | cons p rest ih =>
    simp only [jsMapGet, List.find?_cons] at h
    rcases h2 : (p.1 == sid) with _ | _
    · rw [h2] at h
      simp only [mapDelete, List.filter_cons]
      rcases h3 : (p.1 != k)
      · simpa [mapDelete, jsMapGet] using ih h
      · simp only [if_true, jsMapGet, List.find?_cons, h2]
        simpa [mapDelete, jsMapGet] using ih h
    · rw [h2] at h
      simp at h

/-- Once a session has no live channel, any event that is not a connect for
that very identifier keeps it that way. -/
theorem stepSession_preserves_gone (m : List (String × Nat)) (sid : String)
    (e : SessionEvent) (hnc : ∀ t, e ≠ .connect sid t)
    (h : jsMapGet m sid = none) :
    jsMapGet (stepSession m e) sid = none := by
  cases e with
  | connect sid2 t =>
    have hne : sid2 ≠ sid := by
      intro hc
      subst hc
      exact (hnc t) rfl
    exact jsMapGet_jsMapSet_ne m sid2 sid t hne h
  | close sid2 => exact jsMapGet_mapDelete_none m sid2 sid h

/-- C7: the messages endpoint replies 404 `\x7berror:"Session not found"\x7d`
for a session identifier with no live channel, 500
`\x7berror:"Internal server error"\x7d` when the handler throws for a live
one; and once a session's connection closes (its mapping is deleted), every
subsequent message to that identifier — across any further events that do
not reconnect that exact identifier, which never happens since identifiers
are freshly generated — is answered 404 and never delivered. -/
theorem messages_endpoint_spec :
    (∀ (m : List (String × Nat)) (sid : String) (throws : Bool),
      jsMapGet m sid = none →
      handleMessagesPost m sid throws =
        .response 404 (.obj [("error", .str "Session not found")])) ∧
    (∀ (m : List (String × Nat)) (sid : String) (throws : Bool) (t : Nat),
      jsMapGet m sid = some t →
      handleMessagesPost m sid throws =
        (if throws
          then .response 500 (.obj [("error", .str "Internal server error")])
          else .delivered t)) ∧
    (∀ (m : List (String × Nat)) (sid : String)
        (events : List SessionEvent) (throws : Bool),
      (∀ t, SessionEvent.connect sid t ∉ events) →
      handleMessagesPost
          (events.foldl stepSession (stepSession m (.close sid))) sid throws =
        .response 404 (.obj [("error", .str "Session not found")])) := by
  refine ⟨?_, ?_, ?_⟩
  · intro m sid throws h
    rw [handleMessagesPost, h]
  · intro m sid throws t h
    rw [handleMessagesPost, h]
  · intro m sid events throws hnc
    have hgone : ∀ (evs : List SessionEvent) (m0 : List (String × Nat)),
        (∀ t, SessionEvent.connect sid t ∉ evs) →
        jsMapGet m0 sid = none →
        jsMapGet (evs.foldl stepSession m0) sid = none := by
      intro evs
      induction evs with
      | nil => intro m0 _ h0; exact h0
      | cons e rest ih =>
        intro m0 hnc2 h0
        rw [List.foldl_cons]
        apply ih
        · intro t ht
          exact hnc2 t (List.mem_cons_of_mem _ ht)
        · refine stepSession_preserves_gone m0 sid e ?_ h0
          intro t hc
          subst hc
          exact hnc2 t (List.mem_cons_self _ _)
    rw [handleMessagesPost,
      hgone events (stepSession m (.close sid)) hnc (jsMapGet_mapDelete m sid)]

/-- Witness for C7 at concrete inputs: an unknown session is answered 404,
a throwing handler on a live session is answered 500, and after closing
session `s1` (followed by an unrelated new connection) a message to `s1` is
answered 404. -/
theorem messages_endpoint_spec_witness :
    handleMessagesPost [] "s1" false =
      .response 404 (.obj [("error", .str "Session not found")]) ∧
    handleMessagesPost [("s1", 7)] "s1" true =
      .response 500 (.obj [("error", .str "Internal server error")]) ∧
    handleMessagesPost
        ([SessionEvent.connect "s2" 9].foldl stepSession
          (stepSession [("s1", 7)] (.close "s1"))) "s1" false =
      .response 404 (.obj [("error", .str "Session not found")]) := by
  refine ⟨messages_endpoint_spec.1 [] "s1" false rfl, ?_, ?_⟩
  · have h := messages_endpoint_spec.2.1 [("s1", 7)] "s1" true 7 rfl
    simpa using h
  · refine messages_endpoint_spec.2.2 [("s1", 7)] "s1"
      [SessionEvent.connect "s2" 9] false ?_
    intro t
    simp

/-- C1: tool-name precedence for every registered route.  The name every
registered descriptor carries is exactly `computeToolName`; a truthy
(present, nonempty) per-route override wins, else a truthy declared
`operationId`, else the generated `METHOD_url` slug in which each of the
characters `/`, `:`, `\x7b`, `\x7d` is replaced by `_`; in particular a bare
`GET /hello` route gets the name `GET__hello`. -/
theorem toolName_precedence :
    (∀ (fuel : Nat) (ro : RawRouteOptions) (r : Route),
      onRoute fuel ro = some (.registered r) → r.name = computeToolName ro) ∧
    (∀ ro : RawRouteOptions,
      (jsField (jsField ro.config "mcp") "name").truthy = true →
      computeToolName ro = jsField (jsField ro.config "mcp") "name") ∧
    (∀ ro : RawRouteOptions,
      (jsField (jsField ro.config "mcp") "name").truthy = false →
      (jsField ro.schema "operationId").truthy = true →
      computeToolName ro = jsField ro.schema "operationId") ∧
    (∀ ro : RawRouteOptions,
      (jsField (jsField ro.config "mcp") "name").truthy = false →
      (jsField ro.schema "operationId").truthy = false →
      computeToolName ro =
        .str (jsToString ro.method ++ "_" ++ replaceUrlChars ro.url)) ∧
    replaceUrlChars "/users/:id" = "_users__id" ∧
    computeToolName ⟨.str "GET", "/hello", .undefined, .undefined⟩ = .str "GET__hello" := by
  refine ⟨?_, ?_, ?_, ?_, rfl, by
    simp [computeToolName, jsOr, jsField, JSVal.truthy, jsToString,
      replaceUrlChars]⟩
  · intro fuel ro r h
    rw [onRoute] at h
    by_cases h1 : isHiddenRoute ro = true
    · simp [h1] at h
    · rw [Bool.not_eq_true] at h1
      simp only [h1, Bool.false_eq_true, if_false] at h
      by_cases h2 : extractMethods ro.method = []
      · simp [h2] at h
      · simp only [h2, if_false] at h
        simp only [Option.bind_eq_bind, Option.pure_def, Option.bind_eq_some,
          Option.some.injEq] at h
        obtain ⟨q, -, b, -, p, -, resp, -, hr⟩ := h
        cases hr
        rfl
  · intro ro h
    rw [computeToolName, jsOr, h]
    simp
  · intro ro h1 h2
    rw [computeToolName, jsOr, h1]
    simp only [Bool.false_eq_true, if_false]
    rw [jsOr, h2]
    simp
  · intro ro h1 h2
    rw [computeToolName, jsOr, h1]
    simp only [Bool.false_eq_true, if_false]
    rw [jsOr, h2]
    simp

/-- Witness for C1 at a concrete input: a route with both an override name
and an `operationId` gets the override; after registration the descriptor
carries it. -/
theorem toolName_precedence_witness :
    (onRoute 0 ⟨.str "GET", "/hello",
        .obj [("mcp", .obj [("name", .str "my_hello")])],
        .obj [("operationId", .str "hello")]⟩ =
      some (.registered ⟨["GET"], "/hello", .str "my_hello", .undefined, .undefined,
        [], .undefined, .undefined, .undefined, .undefined, .undefined⟩) ∧
      (⟨["GET"], "/hello", .str "my_hello", .undefined, .undefined,
        [], .undefined, .undefined, .undefined, .undefined, .undefined⟩ : Route).name =
        computeToolName ⟨.str "GET", "/hello",
          .obj [("mcp", .obj [("name", .str "my_hello")])],
          .obj [("operationId", .str "hello")]⟩) ∧
    computeToolName ⟨.str "GET", "/hello",
        .obj [("mcp", .obj [("name", .str "my_hello")])],
        .obj [("operationId", .str "hello")]⟩ =
      jsField (jsField (RawRouteOptions.mk (.str "GET") "/hello"
        (.obj [("mcp", .obj [("name", .str "my_hello")])])
        (.obj [("operationId", .str "hello")])).config "mcp") "name" := by
  have hreg : onRoute 0 ⟨.str "GET", "/hello",
      .obj [("mcp", .obj [("name", .str "my_hello")])],
      .obj [("operationId", .str "hello")]⟩ =
      some (.registered ⟨["GET"], "/hello", .str "my_hello", .undefined, .undefined,
        [], .undefined, .undefined, .undefined, .undefined, .undefined⟩) := by
    rw [onRoute]
    simp [isHiddenRoute, extractMethods, methodAsList, extractTags,
      computeToolName, jsOr, jsField, JSVal.truthy, jsToString,
      replaceUrlChars, validHttpMethods, resolve_undef, jsNullish]
  refine ⟨⟨hreg, toolName_precedence.1 0 _ _ hreg⟩, ?_⟩
  exact toolName_precedence.2.1 _ rfl

/-- C3: example synthesis dispatches on the inferred schema type.  A falsy
node yields `undefined`; a scalar-typed node falls back along
`example` (if truthy) → `default` (if truthy) → type placeholder
(`"string"`, `0`, `0`, `false`); an array-typed node yields a one-element
array of the recursively synthesized item example when `items` is present,
else `[]`; an object-typed node yields an object with every declared
property recursively synthesized when `properties` is present, else
`\x7b\x7d`. -/
theorem generateExample_spec :
    (∀ s : JSVal, s.truthy = false → generateExampleFromSchema s = .undefined) ∧
    (∀ s : JSVal, s.truthy = true →
      (getSchemaType s = .str "string" →
        generateExampleFromSchema s =
          (if (jsField s "example").truthy then jsField s "example"
           else if (jsField s "default").truthy then jsField s "default"
           else .str "string")) ∧
      (getSchemaType s = .str "number" →
        generateExampleFromSchema s =
          (if (jsField s "example").truthy then jsField s "example"
           else if (jsField s "default").truthy then jsField s "default"
           else .num 0)) ∧
      (getSchemaType s = .str "integer" →
        generateExampleFromSchema s =
          (if (jsField s "example").truthy then jsField s "example"
           else if (jsField s "default").truthy then jsField s "default"
           else .num 0)) ∧
      (getSchemaType s = .str "boolean" →
        generateExampleFromSchema s =
          (if (jsField s "example").truthy then jsField s "example"
           else if (jsField s "default").truthy then jsField s "default"
           else .bool false))) ∧
    (∀ s : JSVal, s.truthy = true → getSchemaType s = .str "array" →
      ((jsField s "items").truthy = true →
        generateExampleFromSchema s =
          .arr [generateExampleFromSchema (jsField s "items")]) ∧
      ((jsField s "items").truthy = false →
        generateExampleFromSchema s = .arr [])) ∧
    (∀ s : JSVal, s.truthy = true → getSchemaType s = .str "object" →
      ((jsField s "properties").truthy = true →
        generateExampleFromSchema s =
          .obj ((jsEntries (jsField s "properties")).map
            (fun kv => (kv.1, generateExampleFromSchema kv.2)))) ∧
      ((jsField s "properties").truthy = false →
        generateExampleFromSchema s = .obj [])) := by
  refine ⟨?_, ?_, ?_, ?_⟩
  · intro s h
    rw [generateExampleFromSchema.eq_def, h]
    simp
  · intro s htr
    refine ⟨?_, ?_, ?_, ?_⟩ <;> intro hty <;>
      rw [generateExampleFromSchema.eq_def, htr, hty] <;> simp [jsOr]
  · intro s htr hty
    constructor <;> intro hi <;>
      rw [generateExampleFromSchema.eq_def, htr, hty] <;> simp [hi]
  · intro s htr hty
    constructor <;> intro hp <;>
      rw [generateExampleFromSchema.eq_def, htr, hty] <;> simp [hp] <;>
      exact List.attach_map_val (jsEntries (jsField s "properties"))
        (fun kv => (kv.1, generateExampleFromSchema kv.2))

/-- Witness for C3: a truthy `number` schema without `example` falls back to
its `default`; a truthy `array` schema with an `items` node wraps the item
example. -/
theorem generateExample_spec_witness :
    generateExampleFromSchema (.obj [("type", .str "number"), ("default", .num 5)]) =
      .num 5 ∧
    generateExampleFromSchema
        (.obj [("type", .str "array"), ("items", .obj [("type", .str "boolean")])]) =
      .arr [generateExampleFromSchema (.obj [("type", .str "boolean")])] := by
  constructor
  · refine ((generateExample_spec.2.1
      (.obj [("type", .str "number"), ("default", .num 5)]) rfl).2.1 rfl).trans ?_
    simp [jsField, JSVal.truthy]
  · refine ((generateExample_spec.2.2.1
      (.obj [("type", .str "array"), ("items", .obj [("type", .str "boolean")])])
      rfl rfl).1 rfl).trans ?_
    simp [jsField]

/-- Lookup after a JS map/object assignment: the assigned key reads back the
new value, all other keys are untouched. -/
theorem jsMapGet_jsMapSet {α : Type} (m : List (String × α)) (k : String)
    (v : α) (k2 : String) :
    jsMapGet (jsMapSet m k v) k2 = if k2 = k then some v else jsMapGet m k2 := by
  induction m with
  | nil =>
    by_cases h : k2 = k
    · simp [jsMapSet, jsMapGet, h]
    · simp only [jsMapSet, jsMapGet, List.find?_cons]
      have hb : (k == k2) = false := by
        simp
        exact fun hc => h hc.symm
      rw [hb]
      simp [h]
  | cons p rest ih =>
    rw [jsMapSet]
    by_cases hp : p.1 = k
    · rw [if_pos hp]
      by_cases h : k2 = k
      · subst h
        simp [jsMapGet, List.find?_cons]
      · have hb : (k == k2) = false := by
          simp
          exact fun hc => h hc.symm
        have hb2 : (p.1 == k2) = false := by
          simp [hp]
          exact fun hc => h hc.symm
        simp only [jsMapGet, List.find?_cons, hb, hb2, if_neg h]
    · rw [if_neg hp]
      by_cases hq : p.1 = k2
      · simp only [jsMapGet, List.find?_cons, hq, beq_self_eq_true]
        have : ¬(k2 = k) := fun hc => hp (hq.trans hc)
        simp [this]
      · have hb2 : (p.1 == k2) = false := by simp [hq]
        simp only [jsMapGet, List.find?_cons, hb2] at ih ⊢
        exact ih

/-- The first component of a fold that updates a pair componentwise is the
fold of the first components. -/
theorem foldl_prod_fst {α β γ : Type} (f : α → γ → α) (g : β → γ → β)
    (l : List γ) (st : α × β) :
    (l.foldl (fun acc x => (f acc.1 x, g acc.2 x)) st).1 = l.foldl f st.1 := by
  induction l generalizing st with
  | nil => rfl
  | cons x xs ih => exact ih (f st.1 x, g st.2 x)

/-- The property entries one group contributes, in iteration order: nothing
for a falsy group, else one `(key, record)` pair per declared property. -/
def groupEntryList (mkDesc : String → JSVal → JSVal) (group : JSVal) :
    List (String × JSVal) :=
  if group.truthy = false then []
  else (jsEntries (jsOr (jsField group "properties") (.obj []))).map
    (fun kv => (kv.1, mkPropEntry mkDesc kv.1 kv.2))

/-- All property entries `buildToolInputSchema` writes, concatenated in the
fixed iteration order headers, path-params, query, body. -/
def allPropEntries (route : Route) : List (String × JSVal) :=
  groupEntryList headerPropDesc route.headers ++
  groupEntryList pathPropDesc route.params ++
  groupEntryList queryPropDesc route.querystring ++
  groupEntryList bodyPropDesc route.body

/-- The entry the LAST occurrence of a key in a write sequence leaves in a
JS object (later writes shadow earlier ones). -/
def lastWins : List (String × JSVal) → String → Option JSVal
  | [], _ => none
  | kv :: rest, k =>
    match lastWins rest k with
    | some v => some v
    | none => if kv.1 = k then some kv.2 else none

/-- A fold of JS object assignments reads back as: the last write to the
key if there is one, else whatever the initial map held. -/
theorem foldl_jsMapSet_lookup (kvs : List (String × JSVal))
    (ps0 : List (String × JSVal)) (k : String) :
    jsMapGet (kvs.foldl (fun ps kv => jsMapSet ps kv.1 kv.2) ps0) k =
      (match lastWins kvs k with
       | some v => some v
       | none => jsMapGet ps0 k) := by
  induction kvs generalizing ps0 with
  | nil => rfl
  | cons kv rest ih =>
    rw [List.foldl_cons, ih, lastWins]
    rcases hl : lastWins rest k with _ | v
    · rw [jsMapGet_jsMapSet]
      by_cases hk : k = kv.1
      · simp [hk]
      · have : ¬(kv.1 = k) := fun hc => hk hc.symm
        simp [hk, this]
    · rfl

/-- The property map built by one group equals the assignment fold over
that group's entry list. -/
theorem processGroup_props (mkDesc : String → JSVal → JSVal) (group : JSVal)
    (st : List (String × JSVal) × List String) :
    (processGroup mkDesc group st).1 =
      (groupEntryList mkDesc group).foldl
        (fun ps kv => jsMapSet ps kv.1 kv.2) st.1 := by
  rw [processGroup, groupEntryList]
  by_cases hg : group.truthy = false
  · simp [hg]
  · rw [if_neg hg, if_neg hg]
    rw [List.foldl_map]
    exact foldl_prod_fst
      (fun (ps : List (String × JSVal)) (kv : String × JSVal) =>
        jsMapSet ps kv.1 (mkPropEntry mkDesc kv.1 kv.2))
      (fun (rq : List String) (kv : String × JSVal) =>
        if jsIncludes (jsOr (jsField group "required") (.arr [])) kv.1
          then rq ++ [kv.1] else rq)
      _ st

/-- C5: the input-schema property map is one shared flat JS object filled by
iterating the four parameter groups in the fixed order headers,
path-params, query, body (`allPropEntries`), so looking up any key in the
built schema's `properties` yields exactly the entry written LAST for that
key — for a key declared in more than one group, the later group's entry
silently overwrites the earlier one (headers < params < query < body). -/
theorem inputSchema_lastGroupWins (route : Route) (k : String) :
    jsField (jsField (buildToolInputSchema route) "properties") k =
      (match lastWins (allPropEntries route) k with
       | some entry => entry
       | none => .undefined) := by
  have hprops : jsField (buildToolInputSchema route) "properties" =
      .obj (processGroup bodyPropDesc route.body
        (processGroup queryPropDesc route.querystring
          (processGroup pathPropDesc route.params
            (processGroup headerPropDesc route.headers ([], []))))).1 := by
    rw [buildToolInputSchema]
    simp [jsField]
  rw [hprops]
  have hfold : (processGroup bodyPropDesc route.body
      (processGroup queryPropDesc route.querystring
        (processGroup pathPropDesc route.params
          (processGroup headerPropDesc route.headers ([], []))))).1 =
      (allPropEntries route).foldl (fun ps kv => jsMapSet ps kv.1 kv.2) [] := by
    rw [allPropEntries, List.foldl_append, List.foldl_append, List.foldl_append]
    rw [processGroup_props, processGroup_props, processGroup_props,
      processGroup_props]
  rw [hfold]
  have hj : ∀ (P : List (String × JSVal)),
      jsField (.obj P) k =
        (match jsMapGet P k with | some v => v | none => .undefined) := by
    intro P
    rw [jsField, jsMapGet]
    rcases hf : P.find? (fun p => p.1 == k) with _ | p <;> simp [hf]
  rw [hj, foldl_jsMapSet_lookup]
  rcases lastWins (allPropEntries route) k with _ | v <;> rfl

/-- Options for comparing the two converter variants: full-schema
description off, default skip flags, no custom filter. -/
def c10options : McpPluginOptions := ⟨false, true, true, none⟩

/-- A route with an absent summary but a present description — the case C10
singles out. -/
def c10route : Route :=
  ⟨["GET"], "/hello", .str "hello", .undefined, .str "Says hello", [],
    .undefined, .undefined, .undefined, .undefined, .undefined⟩

/-- A route with a present summary, a truthy response schema and no other
metadata, for exercising the full-schema description path. -/
def c10routeResp : Route :=
  ⟨["GET"], "/ok", .str "ok", .str "ok summary", .undefined, [],
    .undefined, .undefined, .undefined, .undefined,
    .obj [("type", .str "string")]⟩

/-- Options with the full-schema description flag enabled. -/
def c10optionsFull : McpPluginOptions := ⟨true, true, true, none⟩

/-- Counterexample to C10: the two `convertRouteToTool` implementations are
not extensionally equal.  (1) On a route with an absent summary and a
present description the current converter produces the description
`"Says hello"` while the `part_000` variant starts from `route.summary`
(`undefined`) and appends to it, producing `"undefined\n\nSays hello"`.
(2) With `describeFullSchema` enabled and a response schema present the two
output-schema blocks differ by a newline after `**Output Schema:**`. -/
theorem convertRouteToTool_variants_differ :
    (convertRouteToTool c10options c10route ≠
      convertRouteToToolOld c10options c10route) ∧
    (convertRouteToTool c10optionsFull c10routeResp ≠
      convertRouteToToolOld c10optionsFull c10routeResp) := by
  constructor
  · intro h
    have hd := congrArg McpTool.description h
    have h1 : (convertRouteToTool c10options c10route).description =
        .str "Says hello" := by
      simp [convertRouteToTool, buildToolDescription, buildToolDescriptionParts,
        c10options, c10route, JSVal.truthy, jsJoinWith, jsJoinElem, jsToString]
    have h2 : (convertRouteToToolOld c10options c10route).description =
        .str ("undefined" ++ "\n\n" ++ "Says hello") := by
      simp [convertRouteToToolOld, buildToolDescriptionOld, c10options, c10route,
        JSVal.truthy, jsToString]
    rw [h1, h2] at hd
    simp at hd
  · intro h
    have hd := congrArg McpTool.description h
    have hex : generateExampleFromSchema (.obj [("type", .str "string")]) =
        .str "string" := by
      rw [generateExampleFromSchema.eq_def]
      simp [getSchemaType, jsField, JSVal.truthy, jsOr]
    have hsc1 : stringifyCoerce (JSVal.str "string") = "\"string\"" := by
      simp only [stringifyCoerce, jsonStringify]
      rfl
    have hsc2 : stringifyCoerce (JSVal.obj [("type", JSVal.str "string")]) =
        "\x7b\n  \"type\": \"string\"\n\x7d" := by
      simp only [stringifyCoerce, jsonStringify, stringifyFields]
      rfl
    simp only [convertRouteToTool, convertRouteToToolOld, buildToolDescription,
      buildToolDescriptionOld, buildToolDescriptionParts, c10optionsFull,
      c10routeResp, hex, asMDJson, hsc1, hsc2] at hd
    simp [JSVal.truthy, jsJoinWith, jsJoinElem, jsToString] at hd

/-- For truthy values, `join` coercion is plain `String()` coercion. -/
theorem jsJoinElem_truthy {v : JSVal} (h : v.truthy = true) :
    jsJoinElem v = jsToString v := by
  cases v with
  | undefined => simp [JSVal.truthy] at h
  | null => simp [JSVal.truthy] at h
  | bool b => simp [jsJoinElem]
  | num n => simp [jsJoinElem]
  | str s => simp [jsJoinElem]
  | arr xs => simp [jsJoinElem]
  | obj fs => simp [jsJoinElem]

/-- Appending anything to a nonempty string is nonempty. -/
theorem append_ne_empty_left {s : String} (h : s ≠ "") (t : String) :
    s ++ t ≠ "" := by
  intro hc
  apply h
  have hd : s.data ++ t.data = ([] : List Char) := by
    have h2 := congrArg String.data hc
    rwa [String.data_append] at h2
  exact String.ext (by rw [(List.append_eq_nil.mp hd).1])

/-- The `"Tags: "`-prefixed fragment is never the empty string. -/
theorem tags_fragment_ne_empty (t : String) : ("Tags: " ++ t) ≠ "" :=
  append_ne_empty_left (by decide) t

/-- A nonempty string literal value is truthy. -/
theorem truthy_str_of_ne {x : String} (h : x ≠ "") :
    (JSVal.str x).truthy = true := by
  simp [JSVal.truthy, h]

/-- C10 (amended): the two converter implementations always agree on the
tool name and on the input schema (their `buildToolName` and
`buildToolInputSchema` are textually identical); their descriptions agree
whenever the route's summary is a nonempty string and the full-schema
response block is not triggered (`describeFullSchema` off or no truthy
response schema).  They differ otherwise — see the counterexample for an
absent summary. -/
theorem convertRouteToTool_variants_agree (options : McpPluginOptions)
    (route : Route) :
    (convertRouteToTool options route).name =
      (convertRouteToToolOld options route).name ∧
    (convertRouteToTool options route).inputSchema =
      (convertRouteToToolOld options route).inputSchema ∧
    (∀ s : String, route.summary = .str s → s ≠ "" →
      (route.response.truthy && options.describeFullSchema) = false →
      (convertRouteToTool options route).description =
        (convertRouteToToolOld options route).description) := by
  refine ⟨rfl, rfl, ?_⟩
  intro s hs hne hresp
  have hstruthy := truthy_str_of_ne hne
  show buildToolDescription options route = buildToolDescriptionOld options route
  rw [buildToolDescription, buildToolDescriptionOld, buildToolDescriptionParts]
  rw [hs, hresp]
  simp only [Bool.false_eq_true, if_false]
  have hmerge : ∀ t : String, "\n\n" ++ ("Tags: " ++ t) = "\n\nTags: " ++ t :=
    fun t => by rw [← String.append_assoc]; rfl
  have hJ1 : (s ++ "\n\n") ≠ "" := append_ne_empty_left hne "\n\n"
  by_cases hT : route.tags.length > 0 <;> rcases hd : route.description.truthy
  · simp only [hT, if_true, hd, Bool.false_eq_true, if_false]
    simp only [List.filter_append, List.filter_cons, List.filter_nil,
      hstruthy, hd, truthy_str_of_ne (tags_fragment_ne_empty _), if_true,
      Bool.false_eq_true, if_false]
    simp only [jsJoinWith, jsJoinElem, jsToString, List.append_nil,
      List.nil_append, List.cons_append]
    rw [if_neg (append_ne_empty_left hJ1 _)]
    rw [if_pos (truthy_str_of_ne
      (append_ne_empty_left (append_ne_empty_left hne "\n\nTags: ") _))]
    simp [String.append_assoc, hmerge]
  · simp only [hT, if_true, hd, if_true]
    simp only [List.filter_append, List.filter_cons, List.filter_nil,
      hstruthy, hd, truthy_str_of_ne (tags_fragment_ne_empty _), if_true]
    simp only [jsJoinWith, jsJoinElem, jsJoinElem_truthy hd, jsToString,
      List.append_nil, List.nil_append, List.cons_append]
    rw [if_neg (append_ne_empty_left hJ1 _)]
    rw [if_pos (truthy_str_of_ne (append_ne_empty_left
      (append_ne_empty_left (append_ne_empty_left hJ1 _) "\n\nTags: ") _))]
    simp [String.append_assoc, hmerge]
  · simp only [hT, if_false, hd, Bool.false_eq_true]
    simp only [List.filter_cons, List.filter_nil, hstruthy, hd, if_true,
      Bool.false_eq_true, if_false]
    simp only [jsJoinWith, jsJoinElem, jsToString]
    rw [if_neg hne]
  · simp only [hT, if_false, hd, if_true]
    simp only [List.filter_cons, List.filter_nil, hstruthy, hd, if_true]
    simp only [jsJoinWith, jsJoinElem, jsJoinElem_truthy hd, jsToString]
    rw [if_neg (append_ne_empty_left hJ1 _)]
    rw [if_pos (truthy_str_of_ne (append_ne_empty_left hJ1 _))]

/-- Witness for the amended C10 at a concrete route with a nonempty summary
and no response block: both converters agree on the name and the
description. -/
theorem convertRouteToTool_variants_agree_witness :
    (convertRouteToTool c10options
        ⟨["GET"], "/hello", .str "hello", .str "Hello World", .str "Says hello",
          [], .undefined, .undefined, .undefined, .undefined, .undefined⟩).name =
      (convertRouteToToolOld c10options
        ⟨["GET"], "/hello", .str "hello", .str "Hello World", .str "Says hello",
          [], .undefined, .undefined, .undefined, .undefined, .undefined⟩).name ∧
    (convertRouteToTool c10options
        ⟨["GET"], "/hello", .str "hello", .str "Hello World", .str "Says hello",
          [], .undefined, .undefined, .undefined, .undefined, .undefined⟩).description =
      (convertRouteToToolOld c10options
        ⟨["GET"], "/hello", .str "hello", .str "Hello World", .str "Says hello",
          [], .undefined, .undefined, .undefined, .undefined, .undefined⟩).description := by
  have h := convertRouteToTool_variants_agree c10options
    ⟨["GET"], "/hello", .str "hello", .str "Hello World", .str "Says hello",
      [], .undefined, .undefined, .undefined, .undefined, .undefined⟩
  exact ⟨h.1, h.2.2 "Hello World" rfl (by decide) (by simp [c10options])⟩
